import Mathlib

/-!
Shallow embedding of `vdrm-emu/src/plot3d.rs` (the angle-indexed
scene-construction and projection/rendering pipeline of the vdsm repository).

Machine integers are modelled as `Nat`/`Int` (no overflow occurs in the
embedded code: all arithmetic stays far below 2^31), `f32`/`f64` values are
carried symbolically as `ℚ` where only exact arithmetic on them matters, and
external collaborators from the `vdrm_alg` crate (`Codec`, `TOTAL_ANGLES`,
`angle_to_v`, `screens`, `pixel_surface_to_float`) are parameters of the
embedded operations.
-/

namespace Plot3d

/-- Embedding of the color classifier inside `gen_pyramid_surface`
(`plot3d.rs` lines 25-30): a match on the pair of sign tests
`(x_i32 >= 0, y_i32 >= 0)`. -/
def pyramidColor (x_i32 y_i32 : Int) : Nat :=
  match (decide (x_i32 ≥ 0), decide (y_i32 ≥ 0)) with
  | (true, true) => 0b111
  | (false, true) => 0b001
  | (false, false) => 0b010
  | (true, false) => 0b101

/-- Embedding of one iteration of the double loop of `gen_pyramid_surface`
(`plot3d.rs` lines 16-33): the voxel pushed for column `(x, y)`, or `none`
when the `h < 0` guard skips the column. Rust's `h.abs() as u32` becomes
`|h|.toNat`. -/
def pyramidVoxel (x y : Nat) : Option (Nat × Nat × Nat × Nat) :=
  let x_i32 : Int := (x : Int) - 32
  let y_i32 : Int := (y : Int) - 32
  let h : Int := 32 - (|x_i32| + |y_i32|)
  if h < 0 then none
  else
    let z : Nat := |h|.toNat
    some (x, y, z, pyramidColor x_i32 y_i32)

/-- Embedding of `gen_pyramid_surface` (`plot3d.rs` lines 14-35): the
`PixelSurface` produced by pushing, for `x` in `0..64` (outer loop) and `y`
in `0..64` (inner loop), the surviving voxels in loop order. -/
def gen_pyramid_surface : List (Nat × Nat × Nat × Nat) :=
  (List.range 64).flatMap fun x => (List.range 64).filterMap fun y => pyramidVoxel x y

/-- Characterization of membership in the generated surface, used by the
height and color claims. -/
theorem mem_gen_pyramid_surface (x y z c : Nat) :
    (x, y, z, c) ∈ gen_pyramid_surface ↔
      x < 64 ∧ y < 64 ∧ 0 ≤ 32 - (|(x : Int) - 32| + |(y : Int) - 32|) ∧
      (z : Int) = 32 - (|(x : Int) - 32| + |(y : Int) - 32|) ∧
      c = pyramidColor ((x : Int) - 32) ((y : Int) - 32) := by
  constructor
  · intro hmem
    simp only [gen_pyramid_surface, List.mem_flatMap, List.mem_filterMap,
      List.mem_range] at hmem
    obtain ⟨x', hx', y', hy', hsome⟩ := hmem
    unfold pyramidVoxel at hsome
    simp only at hsome
    split at hsome
    · exact absurd hsome (by simp)
    · next hge =>
      push_neg at hge
      simp only [Option.some.injEq, Prod.mk.injEq] at hsome
      obtain ⟨hx, hy, hz, hc⟩ := hsome
      subst hx; subst hy; subst hc
      refine ⟨hx', hy', hge, ?_, rfl⟩
      rw [← hz]
      rw [abs_of_nonneg hge, Int.toNat_of_nonneg hge]
  · rintro ⟨hx, hy, hge, hz, hc⟩
    simp only [gen_pyramid_surface, List.mem_flatMap, List.mem_filterMap,
      List.mem_range]
    refine ⟨x, hx, y, hy, ?_⟩
    unfold pyramidVoxel
    simp only
    rw [if_neg (not_lt.mpr hge)]
    have : z = (|32 - (|(x : Int) - 32| + |(y : Int) - 32|)|).toNat := by
      rw [abs_of_nonneg hge]
      omega
    rw [hc, this]

/-- C2: every voxel of the generated pyramid surface has height
`z = 32 - (|x-32| + |y-32|)` with that value nonnegative, and every column
of the 64x64 grid whose `h = 32 - (|x-32| + |y-32|)` is negative is excluded:
no voxel at such a column is ever present. -/
theorem gen_pyramid_surface_heights :
    (∀ v ∈ gen_pyramid_surface,
        ((v.2.2.1 : Int) = 32 - (|(v.1 : Int) - 32| + |(v.2.1 : Int) - 32|) ∧
          0 ≤ 32 - (|(v.1 : Int) - 32| + |(v.2.1 : Int) - 32|))) ∧
    (∀ x y z c : Nat, x < 64 → y < 64 →
        32 - (|(x : Int) - 32| + |(y : Int) - 32|) < 0 →
        (x, y, z, c) ∉ gen_pyramid_surface) := by
  constructor
  · rintro ⟨x, y, z, c⟩ hv
    obtain ⟨-, -, hge, hz, -⟩ := (mem_gen_pyramid_surface x y z c).1 hv
    exact ⟨hz, hge⟩
  · intro x y z c _ _ hneg hmem
    obtain ⟨-, -, hge, -, -⟩ := (mem_gen_pyramid_surface x y z c).1 hmem
    omega

/-- Witness for `gen_pyramid_surface_heights`: column `(0,0)` has
`h = 32 - (32 + 32) = -32 < 0` and is excluded. -/
theorem gen_pyramid_surface_heights_witness :
    ((0 : Nat), (0 : Nat), (0 : Nat), (0 : Nat)) ∉ gen_pyramid_surface :=
  gen_pyramid_surface_heights.2 0 0 0 0 (by decide) (by decide) (by decide)

/-- C3: the color classifier is total on the signs of `xi = x-32` and
`yi = y-32`, boundary-inclusive (zero counts as nonnegative):
`(xi≥0, yi≥0) ↦ 0b111`, `(xi<0, yi≥0) ↦ 0b001`, `(xi<0, yi<0) ↦ 0b010`,
`(xi≥0, yi<0) ↦ 0b101`; in particular `(0,0)` maps to `0b111`, and the four
codes are pairwise distinct. -/
theorem pyramidColor_spec :
    (∀ xi yi : Int,
        (0 ≤ xi → 0 ≤ yi → pyramidColor xi yi = 0b111) ∧
        (xi < 0 → 0 ≤ yi → pyramidColor xi yi = 0b001) ∧
        (xi < 0 → yi < 0 → pyramidColor xi yi = 0b010) ∧
        (0 ≤ xi → yi < 0 → pyramidColor xi yi = 0b101)) ∧
    pyramidColor 0 0 = 0b111 ∧
    ([0b111, 0b001, 0b010, 0b101] : List Nat).Nodup := by
  refine ⟨?_, by decide, by decide⟩
  intro xi yi
  refine ⟨fun h1 h2 => ?_, fun h1 h2 => ?_, fun h1 h2 => ?_, fun h1 h2 => ?_⟩ <;>
    simp [pyramidColor, ge_iff_le, h1, h2, not_le.mpr, le_of_lt]

/-- Witness for `pyramidColor_spec`: evaluating the classifier in each of the
four quadrants at a concrete point. -/
theorem pyramidColor_spec_witness :
    pyramidColor 0 0 = 0b111 ∧ pyramidColor (-1) 0 = 0b001 ∧
    pyramidColor (-1) (-1) = 0b010 ∧ pyramidColor 1 (-1) = 0b101 :=
  ⟨(pyramidColor_spec.1 0 0).1 (by decide) (by decide),
   (pyramidColor_spec.1 (-1) 0).2.1 (by decide) (by decide),
   (pyramidColor_spec.1 (-1) (-1)).2.2.1 (by decide) (by decide),
   (pyramidColor_spec.1 1 (-1)).2.2.2 (by decide) (by decide)⟩

/-- Model of the mirror quad (`plot3d.rs` lines 36-38): 4 corner points.
Coordinates are `ℚ` since only exact arithmetic on them is at stake. -/
structure Mirror where
  points : List (ℚ × ℚ × ℚ)
deriving DecidableEq

/-- Base (unrotated) corner list of `Mirror::new` (`plot3d.rs` lines 43-48):
the 4 fixed corner pairs with the alternating z sign pattern. -/
def mirrorBase (len : ℚ) : List (ℚ × ℚ × ℚ) :=
  [(len, len, -len), (-len, len, len), (-len, -len, len), (len, -len, -len)]

/-- Application of `glam::Mat2::from_angle(angle) * Vec2::new(x, y)` to the
`(x, y)` components of a corner, leaving z untouched (`plot3d.rs` lines
49-52). The matrix entries `c = cos angle` and `s = sin angle` are carried
symbolically: `from_angle` builds the matrix with columns `(c, s)` and
`(-s, c)`, so the product is `(c*x - s*y, s*x + c*y)`. -/
def rotXY (c s : ℚ) (p : ℚ × ℚ × ℚ) : ℚ × ℚ × ℚ :=
  (c * p.1 - s * p.2.1, s * p.1 + c * p.2.1, p.2.2)

/-- Embedding of `Mirror::new(len, angle)` (`plot3d.rs` lines 40-54). The
external `vdrm_alg::angle_to_v` and the trigonometric evaluation inside
`glam::Mat2::from_angle` are abstracted into the matrix entries `(c, s)` =
`(cos ϑ, sin ϑ)` of the rotation for the angle's radian value ϑ. -/
def Mirror.new (len c s : ℚ) : Mirror :=
  { points := (mirrorBase len).map (rotXY c s) }

/-- C9: at the angle whose radian value is zero the rotation matrix entries
are exactly `cos 0 = 1` and `sin 0 = 0` (exact also in `f32`), and
`Mirror::new` then yields exactly the unrotated base corner set
`(len,len,-len), (-len,len,len), (-len,-len,len), (len,-len,-len)`:
rotation by 0 is the identity on the `(x,y)` components and z is never
changed by the rotation. -/
theorem mirror_new_zero_angle (len : ℚ) :
    (Mirror.new len 1 0).points =
      [(len, len, -len), (-len, len, len), (-len, -len, len), (len, -len, -len)] := by
  simp [Mirror.new, mirrorBase, rotXY]

/-- Embedding of `AngleCtx` (`plot3d.rs` lines 80-84). The mirror type `μ`
and the point type `α` are parameters (`Mirror` poses and decoded `f32`
triples in the source). -/
structure AngleCtx (μ α : Type) where
  mirror : μ
  led_pixels : List α
  emu_pixels : List α
deriving DecidableEq

/-- Embedding of `Ctx` (`plot3d.rs` lines 85-91). The `BTreeMap<u32,
AngleCtx>` is modelled as an association list in ascending key order (which
is both the iteration and the insertion order of the build loop); the screen
type `σ` is a parameter. -/
structure Ctx (μ α σ : Type) where
  angle_ctx_map : List (Nat × AngleCtx μ α)
  all_real_pixels : List α
  all_emu_pixels : List α
  all_led_pixels : List α
  screens : List σ
deriving DecidableEq

/-- One iteration of the angle loop in `Ctx::new` (`plot3d.rs` lines
110-127), made explicit as a fold step over the accumulated map entries and
the running `all_emu_pixels` / `all_led_pixels` aggregates. `mirrorOf`
abstracts `Mirror::new(1/sqrt 2, angle)`, `angleMap` the sparse result of
`codec.encode(&pixel_surface, 0)`, and `decode` the external
`codec.decode(angle, lines)` returning `(emu_pixels, led_pixels)`. -/
def ctxStep {μ α γ : Type} (mirrorOf : Nat → μ) (angleMap : Nat → Option γ)
    (decode : Nat → γ → List α × List α)
    (acc : List (Nat × AngleCtx μ α) × List α × List α) (angle : Nat) :
    List (Nat × AngleCtx μ α) × List α × List α :=
  let mirror := mirrorOf angle
  match angleMap angle with
  | none => (acc.1 ++ [(angle, ⟨mirror, [], []⟩)], acc.2.1, acc.2.2)
  | some lines =>
    let pair := decode angle lines
    (acc.1 ++ [(angle, ⟨mirror, pair.2, pair.1⟩)], acc.2.1 ++ pair.1, acc.2.2 ++ pair.2)

/-- Embedding of `Ctx::new` (`plot3d.rs` lines 94-137). External inputs of
the build are parameters: `total_angles` is `vdrm_alg::TOTAL_ANGLES`,
`realPixels` the z-shifted result of `vdrm_alg::pixel_surface_to_float`,
`screens` the three `Screen` values, and `mirrorOf`, `angleMap`, `decode`
are as in `ctxStep`. -/
def Ctx.new {μ α γ σ : Type} (total_angles : Nat) (mirrorOf : Nat → μ)
    (angleMap : Nat → Option γ) (decode : Nat → γ → List α × List α)
    (realPixels : List α) (screens : List σ) : Ctx μ α σ :=
  let res := (List.range total_angles).foldl
    (ctxStep mirrorOf angleMap decode) ([], [], [])
  { angle_ctx_map := res.1
    all_real_pixels := realPixels
    all_emu_pixels := res.2.1
    all_led_pixels := res.2.2
    screens := screens }

/-- Decoded emulator point list of one angle: empty when the angle is absent
from the sparse encode output. -/
def emuOf {α γ : Type} (angleMap : Nat → Option γ)
    (decode : Nat → γ → List α × List α) (angle : Nat) : List α :=
  match angleMap angle with
  | none => []
  | some lines => (decode angle lines).1

/-- Decoded LED point list of one angle: empty when the angle is absent from
the sparse encode output. -/
def ledOf {α γ : Type} (angleMap : Nat → Option γ)
    (decode : Nat → γ → List α × List α) (angle : Nat) : List α :=
  match angleMap angle with
  | none => []
  | some lines => (decode angle lines).2

/-- The `AngleCtx` stored for one angle by the build loop. -/
def angleCtxOf {μ α γ : Type} (mirrorOf : Nat → μ) (angleMap : Nat → Option γ)
    (decode : Nat → γ → List α × List α) (angle : Nat) : AngleCtx μ α :=
  ⟨mirrorOf angle, ledOf angleMap decode angle, emuOf angleMap decode angle⟩

/-- Closed form of the build fold of `Ctx::new`. -/
theorem ctxFold_eq {μ α γ : Type} (mirrorOf : Nat → μ) (angleMap : Nat → Option γ)
    (decode : Nat → γ → List α × List α) (l : List Nat)
    (acc : List (Nat × AngleCtx μ α) × List α × List α) :
    l.foldl (ctxStep mirrorOf angleMap decode) acc =
      (acc.1 ++ l.map (fun a => (a, angleCtxOf mirrorOf angleMap decode a)),
       acc.2.1 ++ l.flatMap (emuOf angleMap decode),
       acc.2.2 ++ l.flatMap (ledOf angleMap decode)) := by
  induction l generalizing acc with
  | nil => simp
  | cons a t ih =>
    rw [List.foldl_cons, ih]
    cases hA : angleMap a <;>
      simp [ctxStep, angleCtxOf, emuOf, ledOf, hA, List.append_assoc]

/-- Lookup in an association list whose entries pair each key with a function
of that key. -/
theorem lookup_map_pairs {β : Type} (f : Nat → β) (l : List Nat) (a : Nat) :
    List.lookup a (l.map fun x => (x, f x)) =
      if a ∈ l then some (f a) else none := by
  induction l with
  | nil => simp
  | cons x t ih =>
    by_cases hax : a = x
    · subst hax
      simp [List.lookup]
    · simp [List.lookup, beq_false_of_ne hax, ih, hax]

/-- Lookup into the built cache, in closed form. -/
theorem ctx_new_lookup {μ α γ σ : Type} (total_angles : Nat) (mirrorOf : Nat → μ)
    (angleMap : Nat → Option γ) (decode : Nat → γ → List α × List α)
    (realPixels : List α) (screens : List σ) (a : Nat) :
    List.lookup a (Ctx.new total_angles mirrorOf angleMap decode realPixels
        screens).angle_ctx_map
      = if a < total_angles then some (angleCtxOf mirrorOf angleMap decode a)
        else none := by
  have h := ctxFold_eq mirrorOf angleMap decode (List.range total_angles) ([], [], [])
  simp only [Ctx.new, h, List.nil_append]
  rw [lookup_map_pairs]
  simp [List.mem_range]

/-- C4: after the cache is built, `all_emu_pixels` and `all_led_pixels` are
exactly the concatenations, in ascending angle order `0 .. total_angles - 1`,
of the per-angle `emu_pixels` and `led_pixels` lists (equivalently, of the
cache entries in map order), so each aggregate's size is the sum of the
per-angle sizes. -/
theorem ctx_aggregate_concat {μ α γ σ : Type} (total_angles : Nat)
    (mirrorOf : Nat → μ) (angleMap : Nat → Option γ)
    (decode : Nat → γ → List α × List α) (realPixels : List α)
    (screens : List σ) :
    (Ctx.new total_angles mirrorOf angleMap decode realPixels screens).all_emu_pixels
      = (List.range total_angles).flatMap
          (fun a => (angleCtxOf mirrorOf angleMap decode a).emu_pixels) ∧
    (Ctx.new total_angles mirrorOf angleMap decode realPixels screens).all_led_pixels
      = (List.range total_angles).flatMap
          (fun a => (angleCtxOf mirrorOf angleMap decode a).led_pixels) ∧
    (Ctx.new total_angles mirrorOf angleMap decode realPixels screens).all_emu_pixels
      = (Ctx.new total_angles mirrorOf angleMap decode realPixels screens).angle_ctx_map.flatMap
          (fun e => e.2.emu_pixels) ∧
    (Ctx.new total_angles mirrorOf angleMap decode realPixels screens).all_led_pixels
      = (Ctx.new total_angles mirrorOf angleMap decode realPixels screens).angle_ctx_map.flatMap
          (fun e => e.2.led_pixels) ∧
    (Ctx.new total_angles mirrorOf angleMap decode realPixels screens).all_emu_pixels.length
      = ((Ctx.new total_angles mirrorOf angleMap decode realPixels screens).angle_ctx_map.map
          (fun e => e.2.emu_pixels.length)).sum ∧
    (Ctx.new total_angles mirrorOf angleMap decode realPixels screens).all_led_pixels.length
      = ((Ctx.new total_angles mirrorOf angleMap decode realPixels screens).angle_ctx_map.map
          (fun e => e.2.led_pixels.length)).sum := by
  have h := ctxFold_eq mirrorOf angleMap decode (List.range total_angles) ([], [], [])
  refine ⟨?_, ?_, ?_, ?_, ?_, ?_⟩ <;>
    simp [Ctx.new, h, List.flatMap_map, List.length_flatMap, Function.comp_def,
      angleCtxOf, List.map_map]

/-- C5: the built cache has exactly `total_angles` entries with contiguous
keys `0 .. total_angles - 1`; every angle below `total_angles` has an
`AngleCtx`, and an angle absent from the sparse encode output still gets its
mirror pose together with empty point lists. -/
theorem ctx_map_complete {μ α γ σ : Type} (total_angles : Nat)
    (mirrorOf : Nat → μ) (angleMap : Nat → Option γ)
    (decode : Nat → γ → List α × List α) (realPixels : List α)
    (screens : List σ) :
    (Ctx.new total_angles mirrorOf angleMap decode realPixels screens).angle_ctx_map.length
      = total_angles ∧
    (Ctx.new total_angles mirrorOf angleMap decode realPixels screens).angle_ctx_map.map
      Prod.fst = List.range total_angles ∧
    (∀ a, a < total_angles →
      List.lookup a (Ctx.new total_angles mirrorOf angleMap decode realPixels screens).angle_ctx_map
        = some (angleCtxOf mirrorOf angleMap decode a)) ∧
    (∀ a, a < total_angles → angleMap a = none →
      List.lookup a (Ctx.new total_angles mirrorOf angleMap decode realPixels screens).angle_ctx_map
        = some ⟨mirrorOf a, [], []⟩) := by
  have h := ctxFold_eq mirrorOf angleMap decode (List.range total_angles) ([], [], [])
  have hlk : ∀ a,
      List.lookup a (Ctx.new total_angles mirrorOf angleMap decode realPixels screens).angle_ctx_map
        = if a ∈ List.range total_angles
            then some (angleCtxOf mirrorOf angleMap decode a) else none := by
    intro a
    simp only [Ctx.new, h]
    exact lookup_map_pairs _ _ a
  refine ⟨by simp [Ctx.new, h], by simp [Ctx.new, h, Function.comp_def], ?_, ?_⟩
  · intro a ha
    rw [hlk a, if_pos (List.mem_range.mpr ha)]
  · intro a ha hnone
    rw [hlk a, if_pos (List.mem_range.mpr ha)]
    simp [angleCtxOf, emuOf, ledOf, hnone]

/-- Witness for `ctx_map_complete`: a concrete 3-angle build where angle 1 is
absent from the encode output. -/
theorem ctx_map_complete_witness :
    List.lookup 1 (Ctx.new 3 (fun _ => (0 : Nat))
        (fun a => if a = 1 then none else some ())
        (fun a _ => ([a], [a + 10])) ([] : List Nat) ([] : List Unit)).angle_ctx_map
      = some ⟨0, [], []⟩ :=
  (ctx_map_complete 3 (fun _ => (0 : Nat)) (fun a => if a = 1 then none else some ())
      (fun a _ => ([a], [a + 10])) ([] : List Nat) ([] : List Unit)).2.2.2
    1 (by decide) (by decide)

/-- Result of one fallible backend drawing step inside `draw`. -/
inductive StepResult
  | ok
  | err
deriving DecidableEq

/-- Environment of one `draw` call (`plot3d.rs` lines 140-242): whether the
canvas handle is obtained (`CanvasBackend::with_canvas_object` returning
`Some`), and the result of each fallible backend step, in source order:
`area.fill` (line 144), `build_cartesian_3d` (line 154),
`configure_axes().draw()` (line 181), the axis-label `Text` series draw
(lines 184-198), the screens series draw (line 201), the REAL point series
draw (line 209), the MIRROR polygon series draw (line 220), the EMULATOR
point series draw (line 233), the LED point series draw (line 239) and the
series-labels legend draw (line 241). -/
structure Backend where
  canvas_ok : Bool
  fill : StepResult
  build_chart : StepResult
  axes_draw : StepResult
  labels_draw : StepResult
  screens_draw : StepResult
  real_draw : StepResult
  mirror_draw : StepResult
  emu_draw : StepResult
  led_draw : StepResult
  legend_draw : StepResult
deriving DecidableEq

/-- Observable outcome of one `draw` call: normal return (`Ok(())`, recorded
with the emulator and LED clouds that were selected and drawn), the uniform
`DrawResult` error from a `?` propagation, or a panic from an `.unwrap()`. -/
inductive DrawOutcome (α : Type)
  | ok (emu led : List α)
  | drawErr
  | panic
deriving DecidableEq

/-- Point clouds selected by the `match angle` of `draw` (`plot3d.rs` lines
213-228): the all-angle aggregates when no angle is selected, otherwise the
selected angle's decoded lists (the `([], [])` default is only reached when
the lookup fails, in which case `draw` panics before drawing them). -/
def selectedClouds {μ α σ : Type} (ctx : Ctx μ α σ) (angle : Option Nat) :
    List α × List α :=
  match angle with
  | none => (ctx.all_emu_pixels, ctx.all_led_pixels)
  | some a =>
    match List.lookup a ctx.angle_ctx_map with
    | none => ([], [])
    | some angle_ctx => (angle_ctx.emu_pixels, angle_ctx.led_pixels)

/-- Embedding of `draw` (`plot3d.rs` lines 140-242). Each `?` on a failing
backend step returns the uniform draw error and skips every later step; each
`.unwrap()` (canvas acquisition, the axis-label series draw, the
angle-context lookup) panics instead. `_pitch` and `_yaw` only feed the
projection closure installed by `with_projection` (modelled separately by
`buildProjection`), which cannot affect this control flow. -/
def draw {μ α σ : Type} (ctx : Ctx μ α σ) (b : Backend) (angle : Option Nat)
    (_pitch _yaw : ℚ) : DrawOutcome α :=
  if !b.canvas_ok then .panic
  else if b.fill = .err then .drawErr
  else if b.build_chart = .err then .drawErr
  else if b.axes_draw = .err then .drawErr
  else if b.labels_draw = .err then .panic
  else if b.screens_draw = .err then .drawErr
  else if b.real_draw = .err then .drawErr
  else
    match angle with
    | none =>
      if b.emu_draw = .err then .drawErr
      else if b.led_draw = .err then .drawErr
      else if b.legend_draw = .err then .drawErr
      else .ok ctx.all_emu_pixels ctx.all_led_pixels
    | some a =>
      match List.lookup a ctx.angle_ctx_map with
      | none => .panic
      | some angle_ctx =>
        if b.mirror_draw = .err then .drawErr
        else if b.emu_draw = .err then .drawErr
        else if b.led_draw = .err then .drawErr
        else if b.legend_draw = .err then .drawErr
        else .ok angle_ctx.emu_pixels angle_ctx.led_pixels

/-- Names of the steps of one `draw` call, in execution order. -/
inductive Step
  | canvas
  | fill
  | buildChart
  | axesDraw
  | labelsDraw
  | screensDraw
  | realDraw
  | angleLookup
  | mirrorDraw
  | emuDraw
  | ledDraw
  | legendDraw
deriving DecidableEq

/-- Execution order of the steps of `draw`; the lookup and mirror steps only
run when an angle is selected. -/
def stepSeq (angle : Option Nat) : List Step :=
  [.canvas, .fill, .buildChart, .axesDraw, .labelsDraw, .screensDraw, .realDraw] ++
    (match angle with
     | none => []
     | some _ => [.angleLookup, .mirrorDraw]) ++
    [.emuDraw, .ledDraw, .legendDraw]

/-- Whether a given step of the `draw` call fails. -/
def stepFails {μ α σ : Type} (ctx : Ctx μ α σ) (b : Backend)
    (angle : Option Nat) : Step → Bool
  | .canvas => !b.canvas_ok
  | .fill => decide (b.fill = .err)
  | .buildChart => decide (b.build_chart = .err)
  | .axesDraw => decide (b.axes_draw = .err)
  | .labelsDraw => decide (b.labels_draw = .err)
  | .screensDraw => decide (b.screens_draw = .err)
  | .realDraw => decide (b.real_draw = .err)
  | .angleLookup =>
    match angle with
    | none => false
    | some a => (List.lookup a ctx.angle_ctx_map).isNone
  | .mirrorDraw => decide (b.mirror_draw = .err)
  | .emuDraw => decide (b.emu_draw = .err)
  | .ledDraw => decide (b.led_draw = .err)
  | .legendDraw => decide (b.legend_draw = .err)

/-- First failing step of a `draw` call, in execution order. -/
def firstFailing {μ α σ : Type} (ctx : Ctx μ α σ) (b : Backend)
    (angle : Option Nat) : Option Step :=
  (stepSeq angle).find? (stepFails ctx b angle)

/-- Backend in which the canvas is valid and every drawing step succeeds. -/
def allOkBackend : Backend :=
  ⟨true, .ok, .ok, .ok, .ok, .ok, .ok, .ok, .ok, .ok, .ok⟩

/-- C1 (amended): the outcome of every `draw` call is fully determined by
its first failing step: with no failure the call returns `Ok` having drawn
the selected clouds; a failure of any `?`-propagated backend drawing step
(fill, chart/axis construction, screens, REAL, MIRROR, EMULATOR, LED,
legend) surfaces as the single uniform draw error and aborts all later
steps; but the axis-label series draw — and the canvas-acquisition and
angle-lookup precondition steps — panic on failure instead of returning the
error. -/
theorem draw_first_failure_characterization {μ α σ : Type} (ctx : Ctx μ α σ)
    (b : Backend) (angle : Option Nat) (pitch yaw : ℚ) :
    draw ctx b angle pitch yaw =
      match firstFailing ctx b angle with
      | none =>
        DrawOutcome.ok (selectedClouds ctx angle).1 (selectedClouds ctx angle).2
      | some Step.canvas => DrawOutcome.panic
      | some Step.labelsDraw => DrawOutcome.panic
      | some Step.angleLookup => DrawOutcome.panic
      | some _ => DrawOutcome.drawErr := by
  obtain ⟨cv, s1, s2, s3, s4, s5, s6, s7, s8, s9, s10⟩ := b
  cases angle with
  | none =>
    cases cv <;> cases s1 <;> cases s2 <;> cases s3 <;> cases s4 <;> cases s5 <;>
      cases s6 <;> cases s8 <;> cases s9 <;> cases s10 <;> rfl
  | some a =>
    cases hl : List.lookup a ctx.angle_ctx_map with
    | none =>
      simp only [draw, firstFailing, stepSeq, selectedClouds, hl]
      cases cv <;> cases s1 <;> cases s2 <;> cases s3 <;> cases s4 <;> cases s5 <;>
        cases s6 <;> simp [List.find?, stepFails, hl]
    | some angle_ctx =>
      simp only [draw, firstFailing, stepSeq, selectedClouds, hl]
      cases cv <;> cases s1 <;> cases s2 <;> cases s3 <;> cases s4 <;> cases s5 <;>
        cases s6 <;> cases s7 <;> cases s8 <;> cases s9 <;> cases s10 <;>
        simp [List.find?, stepFails, hl]

/-- Concrete cache instance for closed evaluations: two angles, angle 0
present in the encode output, angle 1 absent. -/
def exampleCtx : Ctx Nat Nat Unit :=
  Ctx.new 2 (fun _ => 0) (fun a => if a = 0 then some () else none)
    (fun a _ => ([a], [a + 10])) [] []

/-- C1 counterexample: with a valid canvas and every other step succeeding,
a failure of the axis-label series draw (`plot3d.rs` lines 184-198, a
backend series-draw failure) makes `draw` panic — the `.unwrap()` there does
not surface the uniform draw error. -/
theorem draw_labels_failure_not_draw_error :
    draw exampleCtx { allOkBackend with labels_draw := StepResult.err } none 0 0
        = DrawOutcome.panic ∧
      (DrawOutcome.panic : DrawOutcome Nat) ≠ DrawOutcome.drawErr :=
  ⟨rfl, by decide⟩

/-- C6: for every selected angle below `total_angles` the angle-context
lookup in `draw` succeeds, so under that precondition the fatal
lookup-failure branch is unreachable (an otherwise all-ok call does not
panic); a selected angle `≥ total_angles` makes `draw` halt with a panic
rather than return a draw error. -/
theorem draw_angle_lookup_contract {μ α γ σ : Type} (total_angles : Nat)
    (mirrorOf : Nat → μ) (angleMap : Nat → Option γ)
    (decode : Nat → γ → List α × List α) (realPixels : List α)
    (screens : List σ) :
    (∀ a, a < total_angles →
      (List.lookup a (Ctx.new total_angles mirrorOf angleMap decode realPixels
          screens).angle_ctx_map).isSome = true) ∧
    (∀ a, a < total_angles → ∀ pitch yaw,
      draw (Ctx.new total_angles mirrorOf angleMap decode realPixels screens)
          allOkBackend (some a) pitch yaw ≠ DrawOutcome.panic) ∧
    (∀ a, total_angles ≤ a → ∀ pitch yaw,
      draw (Ctx.new total_angles mirrorOf angleMap decode realPixels screens)
          allOkBackend (some a) pitch yaw = DrawOutcome.panic) := by
  refine ⟨?_, ?_, ?_⟩
  · intro a ha
    rw [ctx_new_lookup total_angles mirrorOf angleMap decode realPixels screens a,
      if_pos ha]
    rfl
  · intro a ha pitch yaw
    have hl := ctx_new_lookup total_angles mirrorOf angleMap decode realPixels screens a
    rw [if_pos ha] at hl
    simp [draw, allOkBackend, hl]
  · intro a ha pitch yaw
    have hl := ctx_new_lookup total_angles mirrorOf angleMap decode realPixels screens a
    rw [if_neg (not_lt.mpr ha)] at hl
    simp [draw, allOkBackend, hl]

/-- Witness for `draw_angle_lookup_contract`: on the concrete two-angle
cache, selecting angle 1 succeeds while selecting angle 5 panics. -/
theorem draw_angle_lookup_contract_witness :
    draw exampleCtx allOkBackend (some 1) 0 0 ≠ DrawOutcome.panic ∧
      draw exampleCtx allOkBackend (some 5) 0 0 = DrawOutcome.panic :=
  ⟨(draw_angle_lookup_contract 2 (fun _ => 0)
      (fun a => if a = 0 then some () else none) (fun a _ => ([a], [a + 10]))
      [] ([] : List Unit)).2.1 1 (by decide) 0 0,
   (draw_angle_lookup_contract 2 (fun _ => 0)
      (fun a => if a = 0 then some () else none) (fun a _ => ([a], [a + 10]))
      [] ([] : List Unit)).2.2 5 (by decide) 0 0⟩

/-- A term of a sum over `List.range` is at most the sum, and strictly less
when a second, distinct index contributes a nonzero term. -/
theorem sum_range_term_le (f : Nat → Nat) (total : Nat) (a : Nat)
    (ha : a < total) :
    f a ≤ ((List.range total).map f).sum ∧
    (∀ b', b' < total → b' ≠ a → f b' ≠ 0 →
      f a < ((List.range total).map f).sum) := by
  obtain ⟨s, t, hst⟩ := List.append_of_mem (List.mem_range.mpr ha)
  constructor
  · rw [hst, List.map_append, List.sum_append, List.map_cons, List.sum_cons]
    omega
  · intro b' hb' hne hnz
    have hbmem : b' ∈ s ++ a :: t := by
      rw [← hst]; exact List.mem_range.mpr hb'
    rw [hst, List.map_append, List.sum_append, List.map_cons, List.sum_cons]
    rcases List.mem_append.mp hbmem with hbs | hbt
    · have hle : f b' ≤ (s.map f).sum :=
        List.single_le_sum (fun x _ => Nat.zero_le x) _ (List.mem_map_of_mem f hbs)
      omega
    · rcases List.mem_cons.mp hbt with h | h
      · exact absurd h hne
      · have hle : f b' ≤ (t.map f).sum :=
          List.single_le_sum (fun x _ => Nat.zero_le x) _ (List.mem_map_of_mem f h)
        omega

/-- Length of each aggregate cloud of the built cache, as a sum over the
angle range. -/
theorem ctx_new_aggregate_lengths {μ α γ σ : Type} (total_angles : Nat)
    (mirrorOf : Nat → μ) (angleMap : Nat → Option γ)
    (decode : Nat → γ → List α × List α) (realPixels : List α)
    (screens : List σ) :
    (Ctx.new total_angles mirrorOf angleMap decode realPixels
        screens).all_emu_pixels.length
      = ((List.range total_angles).map
          (fun x => (emuOf angleMap decode x).length)).sum ∧
    (Ctx.new total_angles mirrorOf angleMap decode realPixels
        screens).all_led_pixels.length
      = ((List.range total_angles).map
          (fun x => (ledOf angleMap decode x).length)).sum := by
  have h := ctxFold_eq mirrorOf angleMap decode (List.range total_angles) ([], [], [])
  constructor <;> simp [Ctx.new, h, List.length_flatMap, Function.comp_def]

/-- C8: for a selected angle `a` below `total_angles`, the emulator and LED
clouds drawn for `a` (the looked-up `AngleCtx`'s lists) are no larger than
the clouds drawn with no angle selected (the aggregates), and strictly
smaller whenever some other angle has non-empty decoded content of the
corresponding kind. -/
theorem selected_size_le_aggregate {μ α γ σ : Type} (total_angles : Nat)
    (mirrorOf : Nat → μ) (angleMap : Nat → Option γ)
    (decode : Nat → γ → List α × List α) (realPixels : List α)
    (screens : List σ) (a : Nat) (ha : a < total_angles)
    (angle_ctx : AngleCtx μ α)
    (hlk : List.lookup a (Ctx.new total_angles mirrorOf angleMap decode realPixels
        screens).angle_ctx_map = some angle_ctx) :
    (angle_ctx.emu_pixels.length
        ≤ (Ctx.new total_angles mirrorOf angleMap decode realPixels
            screens).all_emu_pixels.length ∧
      angle_ctx.led_pixels.length
        ≤ (Ctx.new total_angles mirrorOf angleMap decode realPixels
            screens).all_led_pixels.length) ∧
    ((∃ b', b' < total_angles ∧ b' ≠ a ∧ emuOf angleMap decode b' ≠ []) →
      angle_ctx.emu_pixels.length
        < (Ctx.new total_angles mirrorOf angleMap decode realPixels
            screens).all_emu_pixels.length) ∧
    ((∃ b', b' < total_angles ∧ b' ≠ a ∧ ledOf angleMap decode b' ≠ []) →
      angle_ctx.led_pixels.length
        < (Ctx.new total_angles mirrorOf angleMap decode realPixels
            screens).all_led_pixels.length) := by
  have hctx : angle_ctx = angleCtxOf mirrorOf angleMap decode a := by
    have h := ctx_new_lookup total_angles mirrorOf angleMap decode realPixels screens a
    rw [if_pos ha, hlk] at h
    exact Option.some_injective _ h
  obtain ⟨hemu, hled⟩ := ctx_new_aggregate_lengths total_angles mirrorOf angleMap
    decode realPixels screens
  subst hctx
  rw [hemu, hled]
  simp only [angleCtxOf]
  obtain ⟨hle_e, hlt_e⟩ :=
    sum_range_term_le (fun x => (emuOf angleMap decode x).length) total_angles a ha
  obtain ⟨hle_l, hlt_l⟩ :=
    sum_range_term_le (fun x => (ledOf angleMap decode x).length) total_angles a ha
  refine ⟨⟨hle_e, hle_l⟩, ?_, ?_⟩
  · rintro ⟨b', hb', hne, hnz⟩
    exact hlt_e b' hb' hne (by simpa [List.length_eq_zero] using hnz)
  · rintro ⟨b', hb', hne, hnz⟩
    exact hlt_l b' hb' hne (by simpa [List.length_eq_zero] using hnz)

/-- Witness for `selected_size_le_aggregate`: on the concrete two-angle
cache, the clouds of angle 0 (one point each) are strictly smaller than the
aggregates would be if angle 1 also decoded to content; here angle 1 is
empty, so only the non-strict bounds apply, and a second instantiation with
both angles decoded exhibits the strict ones. -/
theorem selected_size_le_aggregate_witness :
    (([0] : List Nat).length
        ≤ (Ctx.new 2 (fun _ => (0 : Nat)) (fun _ => some ())
            (fun a _ => ([a], [a + 10])) [] ([] : List Unit)).all_emu_pixels.length) ∧
    (([0] : List Nat).length
        < (Ctx.new 2 (fun _ => (0 : Nat)) (fun _ => some ())
            (fun a _ => ([a], [a + 10])) [] ([] : List Unit)).all_emu_pixels.length) :=
  have happ := selected_size_le_aggregate 2 (fun _ => (0 : Nat)) (fun _ => some ())
    (fun a _ => ([a], [a + 10])) [] ([] : List Unit) 0 (by decide)
    ⟨0, [10], [0]⟩ (by decide)
  ⟨happ.1.1, happ.2.1 ⟨1, by decide, by decide, by decide⟩⟩

/-- One factor of the `ProjectionMatrix` product composed by the projection
closure: the default matrix, a shift, a rotation (arguments in the source
order `rotate(x, y, z)`), or a uniform scale. -/
inductive PStep
  | dflt
  | shift (x y z : ℚ)
  | rotate (x y z : ℚ)
  | scale (s : ℚ)
deriving DecidableEq

/-- Embedding of the projection closure installed by `with_projection`
(`plot3d.rs` lines 155-179), as the ordered list of `ProjectionMatrix`
factors composed left-to-right. `x_start, x_end, y_start, y_end` are the
drawing area's pixel range; `pitch` and `yaw` are carried exactly as `ℚ` and
the `1e-20` threshold as `1/10^20`; Rust `i32` division truncates toward
zero, embedded as `Int.tdiv`. -/
def buildProjection (x_start x_end y_start y_end : Int) (pitch yaw : ℚ) :
    List PStep :=
  let v : Int := ((min (x_end - x_start) (y_end - y_start) * 4).tdiv 5).tdiv 2
  let before := (v, v, v)
  let after := ((x_start + x_end).tdiv 2, (y_start + y_end).tdiv 2)
  let mat0 : List PStep :=
    if before = ((0 : Int), (0 : Int), (0 : Int)) then [PStep.dflt]
    else [PStep.shift (-(v : ℚ)) (-(v : ℚ)) (-(v : ℚ)), PStep.dflt]
  let mat1 :=
    if |yaw| > 1 / 10 ^ 20 then mat0 ++ [PStep.rotate 0 0 yaw] else mat0
  let mat2 :=
    if |pitch| > 1 / 10 ^ 20 then mat1 ++ [PStep.rotate pitch 0 0] else mat1
  let mat3 := mat2 ++ [PStep.scale (7 / 10)]
  if after ≠ ((0 : Int), (0 : Int)) then
    mat3 ++ [PStep.shift ((after.1 : ℚ)) ((after.2 : ℚ)) 0]
  else mat3

/-- C7: with `pitch = 0` and `yaw = 0` the projection closure composes no
rotation at all; with `|pitch| > 1e-20` and `|yaw| > 1e-20` both rotations
are composed and the yaw rotation (about the vertical axis,
`rotate(0, 0, yaw)`) comes strictly before — here immediately before — the
pitch rotation (`rotate(pitch, 0, 0)`). -/
theorem buildProjection_rotation_order (x_start x_end y_start y_end : Int)
    (pitch yaw : ℚ) :
    (pitch = 0 → yaw = 0 → ∀ x y z : ℚ,
      PStep.rotate x y z ∉ buildProjection x_start x_end y_start y_end pitch yaw) ∧
    (|pitch| > 1 / 10 ^ 20 → |yaw| > 1 / 10 ^ 20 →
      ∃ pre post, buildProjection x_start x_end y_start y_end pitch yaw
        = pre ++ [PStep.rotate 0 0 yaw, PStep.rotate pitch 0 0] ++ post) := by
  constructor
  · intro hp hy x y z
    subst hp
    subst hy
    have hz : ¬ (|(0 : ℚ)| > 1 / 10 ^ 20) := by norm_num
    simp only [buildProjection, hz, if_false, if_neg hz]
    split_ifs <;> simp
  · intro hp hy
    simp only [buildProjection, if_pos hp, if_pos hy]
    split_ifs with h1 h2
    · exact ⟨[PStep.dflt],
        [PStep.scale (7 / 10),
          PStep.shift (((x_start + x_end).tdiv 2 : ℚ)) (((y_start + y_end).tdiv 2 : ℚ)) 0],
        by simp⟩
    · exact ⟨[PStep.shift (-(((min (x_end - x_start) (y_end - y_start) * 4).tdiv 5).tdiv 2 : ℚ))
          (-(((min (x_end - x_start) (y_end - y_start) * 4).tdiv 5).tdiv 2 : ℚ))
          (-(((min (x_end - x_start) (y_end - y_start) * 4).tdiv 5).tdiv 2 : ℚ)), PStep.dflt],
        [PStep.scale (7 / 10),
          PStep.shift (((x_start + x_end).tdiv 2 : ℚ)) (((y_start + y_end).tdiv 2 : ℚ)) 0],
        by simp⟩
    · exact ⟨[PStep.dflt], [PStep.scale (7 / 10)], by simp⟩
    · exact ⟨[PStep.shift (-(((min (x_end - x_start) (y_end - y_start) * 4).tdiv 5).tdiv 2 : ℚ))
          (-(((min (x_end - x_start) (y_end - y_start) * 4).tdiv 5).tdiv 2 : ℚ))
          (-(((min (x_end - x_start) (y_end - y_start) * 4).tdiv 5).tdiv 2 : ℚ)), PStep.dflt],
        [PStep.scale (7 / 10)], by simp⟩

/-- Witness for `buildProjection_rotation_order`: no rotation factor at
`pitch = yaw = 0`, and the adjacent yaw-then-pitch pair at `pitch = yaw = 1`. -/
theorem buildProjection_rotation_order_witness :
    (∀ x y z : ℚ, PStep.rotate x y z ∉ buildProjection 0 2 0 2 0 0) ∧
    (∃ pre post, buildProjection 0 10 0 10 1 1
      = pre ++ [PStep.rotate 0 0 1, PStep.rotate 1 0 0] ++ post) :=
  ⟨(buildProjection_rotation_order 0 2 0 2 0 0).1 rfl rfl,
   (buildProjection_rotation_order 0 10 0 10 1 1).2 (by norm_num) (by norm_num)⟩

/-- C10: for every viewport with nonnegative pixel dimensions whose smaller
dimension is at most 2 (not only the empty one), the centering offset
`v = min(width, height) * 4 / 5 / 2` computed with truncating integer
division is 0, so the projection starts from the plain default matrix with
no recentring shift; for a smaller dimension of 3 or more, `v` is positive
and the initial shift by `(-v, -v, -v)` is composed before the default
matrix. -/
theorem buildProjection_centering (x_start x_end y_start y_end : Int)
    (pitch yaw : ℚ) (hw : 0 ≤ x_end - x_start) (hh : 0 ≤ y_end - y_start) :
    (min (x_end - x_start) (y_end - y_start) ≤ 2 →
      ((min (x_end - x_start) (y_end - y_start) * 4).tdiv 5).tdiv 2 = 0 ∧
      ∃ rest, buildProjection x_start x_end y_start y_end pitch yaw
        = PStep.dflt :: rest) ∧
    (3 ≤ min (x_end - x_start) (y_end - y_start) →
      0 < ((min (x_end - x_start) (y_end - y_start) * 4).tdiv 5).tdiv 2 ∧
      ∃ rest, buildProjection x_start x_end y_start y_end pitch yaw
        = PStep.shift
            (-(((min (x_end - x_start) (y_end - y_start) * 4).tdiv 5).tdiv 2 : ℚ))
            (-(((min (x_end - x_start) (y_end - y_start) * 4).tdiv 5).tdiv 2 : ℚ))
            (-(((min (x_end - x_start) (y_end - y_start) * 4).tdiv 5).tdiv 2 : ℚ))
            :: PStep.dflt :: rest) := by
  have hm0 : 0 ≤ min (x_end - x_start) (y_end - y_start) := le_min hw hh
  constructor
  · intro hm2
    have hv : ((min (x_end - x_start) (y_end - y_start) * 4).tdiv 5).tdiv 2 = 0 := by
      rcases (by omega :
          min (x_end - x_start) (y_end - y_start) = 0 ∨
          min (x_end - x_start) (y_end - y_start) = 1 ∨
          min (x_end - x_start) (y_end - y_start) = 2) with h | h | h <;>
        rw [h] <;> decide
    refine ⟨hv, ?_⟩
    simp only [buildProjection, hv]
    split_ifs <;> exact ⟨_, rfl⟩
  · intro hm3
    have h04 : 0 ≤ min (x_end - x_start) (y_end - y_start) * 4 := by omega
    have h5 : (min (x_end - x_start) (y_end - y_start) * 4).tdiv 5
        = min (x_end - x_start) (y_end - y_start) * 4 / 5 :=
      Int.tdiv_eq_ediv h04 (by norm_num)
    have h2le : 2 ≤ min (x_end - x_start) (y_end - y_start) * 4 / 5 :=
      (Int.le_ediv_iff_mul_le (by norm_num)).mpr (by omega)
    have h6 : (min (x_end - x_start) (y_end - y_start) * 4 / 5).tdiv 2
        = min (x_end - x_start) (y_end - y_start) * 4 / 5 / 2 :=
      Int.tdiv_eq_ediv (by omega) (by norm_num)
    have hvpos : 0 < ((min (x_end - x_start) (y_end - y_start) * 4).tdiv 5).tdiv 2 := by
      rw [h5, h6]
      have h1le : 1 ≤ min (x_end - x_start) (y_end - y_start) * 4 / 5 / 2 :=
        (Int.le_ediv_iff_mul_le (by norm_num)).mpr (by omega)
      omega
    refine ⟨hvpos, ?_⟩
    simp only [buildProjection]
    have hneq : ¬ ((((min (x_end - x_start) (y_end - y_start) * 4).tdiv 5).tdiv 2,
        ((min (x_end - x_start) (y_end - y_start) * 4).tdiv 5).tdiv 2,
        ((min (x_end - x_start) (y_end - y_start) * 4).tdiv 5).tdiv 2)
          = ((0 : Int), (0 : Int), (0 : Int))) := by
      simp only [Prod.mk.injEq]
      omega
    rw [if_neg hneq]
    split_ifs <;> exact ⟨_, rfl⟩

/-- Witness for `buildProjection_centering`: a 2x2 viewport gets `v = 0` and
no recentring shift; a 10x10 viewport gets `v = 4 > 0` and the shift. -/
theorem buildProjection_centering_witness :
    (((min ((2 : Int) - 0) ((2 : Int) - 0) * 4).tdiv 5).tdiv 2 = 0 ∧
      ∃ rest, buildProjection 0 2 0 2 1 1 = PStep.dflt :: rest) ∧
    (0 < ((min ((10 : Int) - 0) ((10 : Int) - 0) * 4).tdiv 5).tdiv 2 ∧
      ∃ rest, buildProjection 0 10 0 10 1 1
        = PStep.shift (-(((min ((10 : Int) - 0) ((10 : Int) - 0) * 4).tdiv 5).tdiv 2 : ℚ))
            (-(((min ((10 : Int) - 0) ((10 : Int) - 0) * 4).tdiv 5).tdiv 2 : ℚ))
            (-(((min ((10 : Int) - 0) ((10 : Int) - 0) * 4).tdiv 5).tdiv 2 : ℚ))
            :: PStep.dflt :: rest) :=
  ⟨(buildProjection_centering 0 2 0 2 1 1 (by decide) (by decide)).1 (by decide),
   (buildProjection_centering 0 10 0 10 1 1 (by decide) (by decide)).2 (by decide)⟩

end Plot3d
